import Mathlib

/-!
Verification of the direct-network download adapter (`HttpMediaManager`,
src/p2p-media-loader-core/lib/http-media-manager.ts) of p2p-media-loader.

The adapter is embedded shallowly: its two private maps (`xhrRequests`,
`failedSegments`) become association lists keyed by segment id, the clock
(`performance.now()`) becomes an explicit `now : Nat` argument, XHR side
effects become a description of the request that was started, and event
emission becomes an explicit trace.  Where the claim is about the order of
state changes relative to emissions (the asynchronous validator), the trace
records a snapshot of the in-flight id set at each step.
-/

namespace P2PML

/-- Bytes of a payload; an `ArrayBuffer` is a `List Nat`. -/
abbrev Bytes := List Nat

/-- `Segment` from loader-interface.ts, restricted to the fields the
adapter reads: stable id, literal manifest URL, optional explicit byte-range
header value, and the integer priority. -/
structure Segment where
  id : String
  url : String
  range : Option String
  priority : Int
deriving Repr, DecidableEq

/-- The per-request record stored in `xhrRequests`: the segment, the
priority at the moment the request was issued, and the resolved request
URL.  The `xhr` handle itself is abstracted away. -/
structure RequestRecord where
  segment : Segment
  initialPriority : Int
  segmentUrl : String
deriving Repr, DecidableEq

/-- Association-list lookup, modelling `Map.get`. -/
def mlookup {β : Type} : List (String × β) → String → Option β
  | [], _ => none
  | (k, v) :: rest, key => if k = key then some v else mlookup rest key

/-- Association-list deletion, modelling `Map.delete`. -/
def merase {β : Type} : List (String × β) → String → List (String × β)
  | [], _ => []
  | (k, v) :: rest, key =>
    if k = key then merase rest key else (k, v) :: merase rest key

/-- Association-list insertion, modelling `Map.set`. -/
def minsert {β : Type} (l : List (String × β)) (key : String) (v : β) : List (String × β) :=
  merase l key ++ [(key, v)]

/-- Mutable state of an `HttpMediaManager` instance: the in-flight request
map and the failed-segment blacklist (segment id to expiry timestamp). -/
structure ManagerState where
  xhrRequests : List (String × RequestRecord)
  failedSegments : List (String × Nat)
deriving Repr, DecidableEq

/-- The settings the constructor receives.  The optional hooks are modelled
as optional functions; the validator returns `true` to accept (the promise
resolves) and `false` to reject (the promise throws). -/
structure Settings where
  httpFailedSegmentTimeout : Nat
  httpUseRanges : Bool
  requiredSegmentsPriority : Int
  skipSegmentBuilderPriority : Int
  segmentValidator : Option (Segment → Bytes → Bool)
  segmentUrlBuilder : Option (Segment → String)

/-- The five lifecycle events the adapter emits. -/
inductive Event
  | segmentStartLoad (id : String)
  | segmentLoaded (id : String) (data : Bytes)
  | segmentError (id : String)
  | segmentSize (id : String) (total : Nat)
  | bytesDownloaded (id : String) (n : Int)
deriving Repr, DecidableEq

/-- Ids of the segments currently in flight, in map order. -/
def inflightIds (st : ManagerState) : List String :=
  st.xhrRequests.map Prod.fst

/-- `isDownloading`: membership of the segment id in `xhrRequests`. -/
def isDownloading (st : ManagerState) (segment : Segment) : Bool :=
  (mlookup st.xhrRequests segment.id).isSome

/-- `isFailed`: the blacklist holds an entry for the id whose expiry is
still in the future (`time > this.now()`). -/
def isFailed (st : ManagerState) (segment : Segment) (now : Nat) : Bool :=
  match mlookup st.failedSegments segment.id with
  | some time => time > now
  | none => false

/-- `getActiveDownloadsCount`: size of `xhrRequests`. -/
def getActiveDownloadsCount (st : ManagerState) : Nat :=
  st.xhrRequests.length

/-- `buildSegmentUrl`: apply the configured URL-builder hook when present,
otherwise fall back to the literal manifest URL. -/
def buildSegmentUrl (s : Settings) (segment : Segment) : String :=
  match s.segmentUrlBuilder with
  | some builder => builder segment
  | none => segment.url

/-- `cleanTimedOutFailedSegments`: delete every blacklist entry whose
expiry is strictly before `now`. -/
def cleanTimedOutFailedSegments (failed : List (String × Nat)) (now : Nat) :
    List (String × Nat) :=
  failed.filter (fun p => ¬ (p.2 < now))

/-- Total byte length of the previously received pieces
(`bytesDownloaded` accumulation loop in `download`). -/
def sumLen (pieces : List Bytes) : Nat :=
  (pieces.map List.length).sum

/-- Description of the XHR that `download` opened and sent: the resolved
request URL, the `Range` header if one was set, and the pieces captured by
the closure passed to `setupXhrEvents` (those that the load handler will
prepend on a 206 response). -/
structure StartedRequest where
  url : String
  rangeHeader : Option String
  capturedPieces : Option (List Bytes)
deriving Repr, DecidableEq

/-- Result of a `download` call: the new state, the events emitted during
the call, and the request that was started (`none` when the call returned
early because the segment was already downloading). -/
structure DownloadResult where
  state : ManagerState
  events : List Event
  started : Option StartedRequest
deriving Repr, DecidableEq

/-- The URL resolution at the top of `download`: the literal manifest URL
when the priority is at or below `skipSegmentBuilderPriority`, the builder
result otherwise. -/
def resolveUrl (s : Settings) (segment : Segment) : String :=
  if segment.priority ≤ s.skipSegmentBuilderPriority then segment.url
  else buildSegmentUrl s segment

/-- The `Range`-header branch of `download`: an explicit segment range
wins and discards the pieces; otherwise, with ranges enabled and pieces
supplied, resume from the total byte length of the pieces and keep them
for reassembly; in every other case no header is set and the pieces are
discarded. -/
def resolveRange (s : Settings) (segment : Segment)
    (downloadedPieces : Option (List Bytes)) : Option String × Option (List Bytes) :=
  match segment.range with
  | some r => (some r, none)
  | none =>
    match downloadedPieces with
    | some pieces =>
      if s.httpUseRanges then
        (some ("bytes=" ++ toString (sumLen pieces) ++ "-"), some pieces)
      else (none, none)
    | none => (none, none)

/-- `download`: early-return when already in flight; otherwise purge the
blacklist, emit `segment-start-load`, resolve the URL and the `Range`
header, and record the request under the segment id with the priority at
issue time. -/
def download (s : Settings) (now : Nat) (st : ManagerState) (segment : Segment)
    (downloadedPieces : Option (List Bytes)) : DownloadResult :=
  if isDownloading st segment then
    ⟨st, [], none⟩
  else
    let st1 : ManagerState :=
      { st with failedSegments := cleanTimedOutFailedSegments st.failedSegments now }
    let segmentUrl : String := resolveUrl s segment
    let headerAndPieces : Option String × Option (List Bytes) :=
      resolveRange s segment downloadedPieces
    let st2 : ManagerState :=
      { st1 with xhrRequests :=
          minsert st1.xhrRequests segment.id ⟨segment, segment.priority, segmentUrl⟩ }
    ⟨st2, [Event.segmentStartLoad segment.id],
      some ⟨segmentUrl, headerAndPieces.1, headerAndPieces.2⟩⟩

/-- `abort`: when the segment has an in-flight request, abort the XHR and
delete the record; otherwise do nothing. -/
def abort (st : ManagerState) (segment : Segment) : ManagerState :=
  match mlookup st.xhrRequests segment.id with
  | some _ => { st with xhrRequests := merase st.xhrRequests segment.id }
  | none => st

/-- `segmentFailure`: drop the request record, blacklist the id until
`now + httpFailedSegmentTimeout`, emit `segment-error`. -/
def segmentFailure (s : Settings) (now : Nat) (st : ManagerState)
    (segment : Segment) : ManagerState × List Event :=
  let st1 : ManagerState :=
    { xhrRequests := merase st.xhrRequests segment.id,
      failedSegments :=
        minsert st.failedSegments segment.id (now + s.httpFailedSegmentTimeout) }
  (st1, [Event.segmentError segment.id])

/-- One step of the trace produced by the load path: either the awaited
validator call (with the in-flight ids at that moment, the payload it was
given, and its verdict) or an event emission (with the in-flight ids at
the moment of emission). -/
inductive FinStep
  | validatorCalled (inflight : List String) (data : Bytes) (accepted : Bool)
  | emitted (ev : Event) (inflight : List String)
deriving Repr, DecidableEq

/-- Wrap plain events as trace steps carrying the in-flight snapshot of
the state in which they are emitted. -/
def emitAll (st : ManagerState) (evs : List Event) : List FinStep :=
  evs.map (fun e => FinStep.emitted e (inflightIds st))

/-- `segmentDownloadFinished`: await the validator when configured (the
state is untouched while it runs); on rejection take the failure path; on
acceptance (or no validator) delete the request record and only then emit
`segment-loaded`. -/
def segmentDownloadFinished (s : Settings) (now : Nat) (st : ManagerState)
    (segment : Segment) (data : Bytes) : ManagerState × List FinStep :=
  match s.segmentValidator with
  | some validator =>
    let accepted := validator segment data
    let step := FinStep.validatorCalled (inflightIds st) data accepted
    if accepted then
      let st1 : ManagerState := { st with xhrRequests := merase st.xhrRequests segment.id }
      (st1, step :: emitAll st1 [Event.segmentLoaded segment.id data])
    else
      let r := segmentFailure s now st segment
      (r.1, step :: emitAll r.1 r.2)
  | none =>
    let st1 : ManagerState := { st with xhrRequests := merase st.xhrRequests segment.id }
    (st1, emitAll st1 [Event.segmentLoaded segment.id data])

/-- The `load` listener installed by `setupXhrEvents`: fail on a non-2xx
status; otherwise, when pieces were captured and the status is 206,
prepend them to the response in their original order; then finish. -/
def handleLoad (s : Settings) (now : Nat) (st : ManagerState) (segment : Segment)
    (capturedPieces : Option (List Bytes)) (status : Nat) (response : Bytes) :
    ManagerState × List FinStep :=
  if status < 200 ∨ 300 ≤ status then
    let r := segmentFailure s now st segment
    (r.1, emitAll r.1 r.2)
  else
    let data : Bytes :=
      match capturedPieces with
      | some pieces => if status = 206 then pieces.flatten ++ response else response
      | none => response
    segmentDownloadFinished s now st segment data

/-- The `error` listener: straight to `segmentFailure`. -/
def handleError (s : Settings) (now : Nat) (st : ManagerState) (segment : Segment) :
    ManagerState × List Event :=
  segmentFailure s now st segment

/-- The `timeout` listener: straight to `segmentFailure`. -/
def handleTimeout (s : Settings) (now : Nat) (st : ManagerState) (segment : Segment) :
    ManagerState × List Event :=
  segmentFailure s now st segment

/-- A single XHR progress notification as the listener sees it. -/
structure ProgressEvent where
  loaded : Nat
  lengthComputable : Bool
  total : Nat
deriving Repr, DecidableEq

/-- The `progress` listener body: emit `bytes-downloaded` with the delta
from the previous notification, update the accumulator, then emit
`segment-size` when the length is computable. -/
def progressStep (segId : String) (prevBytesLoaded : Nat) (e : ProgressEvent) :
    Nat × List Event :=
  let evs := [Event.bytesDownloaded segId ((e.loaded : Int) - (prevBytesLoaded : Int))]
  let evs := if e.lengthComputable then evs ++ [Event.segmentSize segId e.total] else evs
  (e.loaded, evs)

/-- Run the progress listener over a sequence of notifications, threading
the `prevBytesLoaded` accumulator (a fresh closure per request, starting
at 0 in `setupXhrEvents`). -/
def runProgress (segId : String) (prevBytesLoaded : Nat) :
    List ProgressEvent → Nat × List Event
  | [] => (prevBytesLoaded, [])
  | e :: rest =>
    let r := progressStep segId prevBytesLoaded e
    let r2 := runProgress segId r.1 rest
    (r2.1, r.2 ++ r2.2)

/-- `updatePriority`: throw when the segment has no in-flight request;
abort and re-download (without pieces) when the segment's priority has
dropped to the skip-builder window, the request was issued above it, and
the in-flight URL differs from the literal URL; otherwise do nothing.  The
thrown `Error` is modelled by `Except.error` carrying its message. -/
def updatePriority (s : Settings) (now : Nat) (st : ManagerState)
    (segment : Segment) : Except String DownloadResult :=
  match mlookup st.xhrRequests segment.id with
  | none =>
    Except.error ("Cannot update priority of not downloaded segment " ++ segment.id)
  | some request =>
    if segment.priority ≤ s.skipSegmentBuilderPriority ∧
        request.initialPriority > s.skipSegmentBuilderPriority ∧
        request.segmentUrl ≠ segment.url then
      Except.ok (download s now (abort st segment) segment none)
    else
      Except.ok ⟨st, [], none⟩

/-- `destroy`: abort every XHR and clear the request map (the blacklist is
kept). -/
def destroy (st : ManagerState) : ManagerState :=
  { st with xhrRequests := [] }

/-! ### Association-list lemmas -/

theorem mlookup_eq_none_of_not_mem {β : Type} (l : List (String × β)) (k : String)
    (h : k ∉ l.map Prod.fst) : mlookup l k = none := by
  induction l with
  | nil => rfl
  | cons p rest ih =>
    obtain ⟨a, b⟩ := p
    simp only [List.map_cons, List.mem_cons] at h
    push_neg at h
    simp only [mlookup, if_neg (Ne.symm h.1)]
    exact ih h.2

theorem mem_keys_of_mlookup_isSome {β : Type} (l : List (String × β)) (k : String)
    (h : (mlookup l k).isSome = true) : k ∈ l.map Prod.fst := by
  induction l with
  | nil => simp [mlookup] at h
  | cons p rest ih =>
    obtain ⟨a, b⟩ := p
    by_cases hak : a = k
    · simp [hak]
    · simp only [mlookup, if_neg hak] at h
      simp [ih h]

theorem mlookup_merase_self {β : Type} (l : List (String × β)) (k : String) :
    mlookup (merase l k) k = none := by
  induction l with
  | nil => rfl
  | cons p rest ih =>
    obtain ⟨a, b⟩ := p
    by_cases hak : a = k
    · simpa [merase, hak] using ih
    · simpa [merase, mlookup, hak] using ih

theorem mlookup_append_none {β : Type} (l1 l2 : List (String × β)) (k : String)
    (h : mlookup l1 k = none) : mlookup (l1 ++ l2) k = mlookup l2 k := by
  induction l1 with
  | nil => rfl
  | cons p rest ih =>
    obtain ⟨a, b⟩ := p
    by_cases hak : a = k
    · simp [mlookup, hak] at h
    · simp only [mlookup, if_neg hak] at h
      simpa [mlookup, hak] using ih h

theorem mlookup_minsert_self {β : Type} (l : List (String × β)) (k : String) (v : β) :
    mlookup (minsert l k v) k = some v := by
  unfold minsert
  rw [mlookup_append_none _ _ _ (mlookup_merase_self l k)]
  simp [mlookup]

theorem merase_eq_of_mlookup_none {β : Type} (l : List (String × β)) (k : String)
    (h : mlookup l k = none) : merase l k = l := by
  induction l with
  | nil => rfl
  | cons p rest ih =>
    obtain ⟨a, b⟩ := p
    by_cases hak : a = k
    · simp [mlookup, hak] at h
    · simp only [mlookup, if_neg hak] at h
      simp [merase, hak, ih h]

theorem length_merase {β : Type} (l : List (String × β)) (k : String) (v : β)
    (hnd : (l.map Prod.fst).Nodup) (h : mlookup l k = some v) :
    (merase l k).length + 1 = l.length := by
  induction l with
  | nil => simp [mlookup] at h
  | cons p rest ih =>
    obtain ⟨a, b⟩ := p
    simp only [List.map_cons, List.nodup_cons] at hnd
    by_cases hak : a = k
    · subst hak
      have hnone : mlookup rest a = none := mlookup_eq_none_of_not_mem rest a hnd.1
      simp [merase, merase_eq_of_mlookup_none rest a hnone]
    · simp only [mlookup, if_neg hak] at h
      simp only [merase, if_neg hak, List.length_cons]
      rw [ih hnd.2 h]

theorem not_mem_keys_merase {β : Type} (l : List (String × β)) (k : String) :
    k ∉ (merase l k).map Prod.fst := by
  induction l with
  | nil => simp [merase]
  | cons p rest ih =>
    obtain ⟨a, b⟩ := p
    by_cases hak : a = k
    · simpa [merase, hak] using ih
    · simp only [merase, if_neg hak, List.map_cons, List.mem_cons]
      push_neg
      exact ⟨fun hk => hak hk.symm, ih⟩

/-! ### Characterization of `download` on the non-early-return path -/

theorem download_of_not_downloading (s : Settings) (now : Nat) (st : ManagerState)
    (segment : Segment) (pieces : Option (List Bytes))
    (h : isDownloading st segment = false) :
    download s now st segment pieces =
      ⟨⟨minsert st.xhrRequests segment.id ⟨segment, segment.priority, resolveUrl s segment⟩,
        cleanTimedOutFailedSegments st.failedSegments now⟩,
       [Event.segmentStartLoad segment.id],
       some ⟨resolveUrl s segment, (resolveRange s segment pieces).1,
             (resolveRange s segment pieces).2⟩⟩ := by
  simp [download, h]

/-! ### Example fixtures used by witnesses and counterexamples -/

def exSeg : Segment := ⟨"s1", "litUrl", none, 0⟩

def exSegHigh : Segment := ⟨"s1", "litUrl", none, 5⟩

def exReq : RequestRecord := ⟨exSegHigh, 5, "builtUrl"⟩

def exStInflight : ManagerState := ⟨[("s1", exReq)], []⟩

def exStEmpty : ManagerState := ⟨[], []⟩

def exSettings : Settings := ⟨100, true, 1, 1, none, none⟩

/-! ### Claim theorems -/

/-- C9: `abort` is idempotent — aborting a segment with no in-flight
request is a no-op leaving the whole adapter state unchanged, aborting an
in-flight segment removes it from the in-flight set synchronously so that
the active-downloads count is already decremented when `abort` returns
(the blacklist is untouched), and a second `abort` changes nothing. -/
theorem abort_idempotent_spec (st : ManagerState) (segment : Segment)
    (hnd : (st.xhrRequests.map Prod.fst).Nodup) :
    (isDownloading st segment = false → abort st segment = st) ∧
    (isDownloading st segment = true →
      getActiveDownloadsCount (abort st segment) + 1 = getActiveDownloadsCount st ∧
      isDownloading (abort st segment) segment = false ∧
      (abort st segment).failedSegments = st.failedSegments) ∧
    abort (abort st segment) segment = abort st segment := by
  refine ⟨?_, ?_, ?_⟩
  · intro h
    unfold abort
    cases hm : mlookup st.xhrRequests segment.id with
    | none => rfl
    | some r => simp [isDownloading, hm] at h
  · intro h
    cases hm : mlookup st.xhrRequests segment.id with
    | none => simp [isDownloading, hm] at h
    | some r =>
      unfold abort
      rw [hm]
      refine ⟨?_, ?_, rfl⟩
      · simpa [getActiveDownloadsCount] using length_merase st.xhrRequests segment.id r hnd hm
      · simp [isDownloading, mlookup_merase_self]
  · cases hm : mlookup st.xhrRequests segment.id with
    | none =>
      have hid : abort st segment = st := by unfold abort; rw [hm]
      rw [hid]
      exact hid
    | some r =>
      have hab : abort st segment =
          { st with xhrRequests := merase st.xhrRequests segment.id } := by
        unfold abort; rw [hm]
      rw [hab]
      unfold abort
      rw [mlookup_merase_self]

/-- C9 witness: on a concrete one-request state, abort removes the request
and decrements the count; aborting on the empty state is a no-op. -/
theorem abort_idempotent_spec_witness :
    ((exStInflight.xhrRequests.map Prod.fst).Nodup ∧
      isDownloading exStInflight exSeg = true) ∧
    (getActiveDownloadsCount (abort exStInflight exSeg) + 1 =
      getActiveDownloadsCount exStInflight ∧
     isDownloading (abort exStInflight exSeg) exSeg = false ∧
     (abort exStInflight exSeg).failedSegments = exStInflight.failedSegments) :=
  ⟨⟨by decide, by decide⟩,
   (abort_idempotent_spec exStInflight exSeg (by decide)).2.1 (by decide)⟩

/-- C10: calling `download` for a segment that already has an in-flight
request returns immediately with no effect: the state (in-flight map and
blacklist, hence the recorded initial priority and request URL, and the
unpurged blacklist) is unchanged, no event is emitted, and no request is
started. -/
theorem download_noop_when_downloading (s : Settings) (now : Nat)
    (st : ManagerState) (segment : Segment) (pieces : Option (List Bytes))
    (h : isDownloading st segment = true) :
    download s now st segment pieces = ⟨st, [], none⟩ := by
  simp [download, h]

/-- C10 witness: a concrete duplicate `download` call is a no-op. -/
theorem download_noop_when_downloading_witness :
    isDownloading exStInflight exSeg = true ∧
    download exSettings 7 exStInflight exSeg none = ⟨exStInflight, [], none⟩ :=
  ⟨by decide, download_noop_when_downloading exSettings 7 exStInflight exSeg none (by decide)⟩

/-- C5: calling `updatePriority` for a segment with no in-flight request
throws immediately (modelled as `Except.error` carrying the thrown
message) before touching any adapter state — the error is raised by the
very first statement, so no state field is read or written. -/
theorem updatePriority_throws_when_not_downloading (s : Settings) (now : Nat)
    (st : ManagerState) (segment : Segment)
    (h : isDownloading st segment = false) :
    updatePriority s now st segment =
      Except.error ("Cannot update priority of not downloaded segment " ++ segment.id) := by
  unfold updatePriority
  cases hm : mlookup st.xhrRequests segment.id with
  | none => rfl
  | some r => simp [isDownloading, hm] at h

/-- C5 witness: on the empty state the call throws with the exact
message. -/
theorem updatePriority_throws_witness :
    isDownloading exStEmpty exSeg = false ∧
    updatePriority exSettings 0 exStEmpty exSeg =
      Except.error "Cannot update priority of not downloaded segment s1" :=
  ⟨by decide, updatePriority_throws_when_not_downloading exSettings 0 exStEmpty exSeg (by decide)⟩

/-- C6: for every actually-issued download, the request URL (also as
recorded in the in-flight record) is the literal manifest URL whenever the
segment's priority is at or below `skipSegmentBuilderPriority` — whatever
URL builder is configured, it is not consulted — and above that threshold
it is the builder's result when a builder is configured and the literal
URL otherwise. -/
theorem download_url_spec (s : Settings) (now : Nat) (st : ManagerState)
    (segment : Segment) (pieces : Option (List Bytes))
    (h : isDownloading st segment = false) :
    ∃ req : StartedRequest,
      (download s now st segment pieces).started = some req ∧
      mlookup (download s now st segment pieces).state.xhrRequests segment.id =
        some ⟨segment, segment.priority, req.url⟩ ∧
      (segment.priority ≤ s.skipSegmentBuilderPriority → req.url = segment.url) ∧
      (s.skipSegmentBuilderPriority < segment.priority →
        (∀ builder, s.segmentUrlBuilder = some builder → req.url = builder segment) ∧
        (s.segmentUrlBuilder = none → req.url = segment.url)) := by
  rw [download_of_not_downloading s now st segment pieces h]
  refine ⟨⟨resolveUrl s segment, (resolveRange s segment pieces).1,
          (resolveRange s segment pieces).2⟩, rfl, ?_, ?_, ?_⟩
  · exact mlookup_minsert_self _ _ _
  · intro hp
    simp [resolveUrl, hp]
  · intro hp
    have hnp : ¬ segment.priority ≤ s.skipSegmentBuilderPriority := not_le.mpr hp
    constructor
    · intro builder hb
      simp [resolveUrl, if_neg hnp, buildSegmentUrl, hb]
    · intro hb
      simp [resolveUrl, if_neg hnp, buildSegmentUrl, hb]

/-- Settings for the C1 counterexample: the mandatory threshold
(`requiredSegmentsPriority` = 3) differs from the skip-builder threshold
(`skipSegmentBuilderPriority` = 1). -/
def c1Settings : Settings := ⟨100, true, 3, 1, none, some (fun _ => "builtUrl")⟩

/-- A segment whose priority has dropped to 2: mandatory (≤ 3) but above
the skip-builder threshold (> 1). -/
def c1Seg : Segment := ⟨"s1", "litUrl", none, 2⟩

/-- Its in-flight request, issued at priority 5 under the rewritten URL. -/
def c1Req : RequestRecord := ⟨⟨"s1", "litUrl", none, 5⟩, 5, "builtUrl"⟩

def c1St : ManagerState := ⟨[("s1", c1Req)], []⟩

/-- The same segment at priority 1, inside the skip-builder window. -/
def c1wSeg : Segment := ⟨"s1", "litUrl", none, 1⟩

/-- C1 counterexample: under `c1Settings` the segment `c1Seg` is now
mandatory (priority 2 ≤ requiredSegmentsPriority 3), its in-flight request
was issued at non-mandatory priority 5 under the rewritten URL "builtUrl"
which differs from the literal "litUrl" — the claim's trigger — yet
`updatePriority` leaves the in-flight request unchanged: the code compares
priorities against `skipSegmentBuilderPriority` (2 ≤ 1 fails), not against
the mandatory threshold. -/
theorem updatePriority_mandatory_counterexample :
    c1Seg.priority ≤ c1Settings.requiredSegmentsPriority ∧
    c1Settings.requiredSegmentsPriority < c1Req.initialPriority ∧
    c1Req.segmentUrl ≠ c1Seg.url ∧
    mlookup c1St.xhrRequests c1Seg.id = some c1Req ∧
    updatePriority c1Settings 0 c1St c1Seg = Except.ok ⟨c1St, [], none⟩ := by
  refine ⟨by decide, by decide, by decide, by decide, ?_⟩
  rfl

/-- C1 (amended): for a segment with an in-flight request, `updatePriority`
aborts and immediately restarts the download under the literal manifest
URL exactly when the request's initial priority was above
`skipSegmentBuilderPriority`, the segment's priority is now at or below
`skipSegmentBuilderPriority`, and the literal URL differs from the URL in
flight; in every other case the in-flight request is left unchanged and
nothing is emitted. -/
theorem updatePriority_abort_retry_spec (s : Settings) (now : Nat)
    (st : ManagerState) (segment : Segment) (request : RequestRecord)
    (h : mlookup st.xhrRequests segment.id = some request) :
    ((segment.priority ≤ s.skipSegmentBuilderPriority ∧
      request.initialPriority > s.skipSegmentBuilderPriority ∧
      request.segmentUrl ≠ segment.url) →
      ∃ r : DownloadResult,
        updatePriority s now st segment = Except.ok r ∧
        r.events = [Event.segmentStartLoad segment.id] ∧
        r.started = some ⟨segment.url, (resolveRange s segment none).1,
                          (resolveRange s segment none).2⟩ ∧
        mlookup r.state.xhrRequests segment.id =
          some ⟨segment, segment.priority, segment.url⟩) ∧
    (¬ (segment.priority ≤ s.skipSegmentBuilderPriority ∧
        request.initialPriority > s.skipSegmentBuilderPriority ∧
        request.segmentUrl ≠ segment.url) →
      updatePriority s now st segment = Except.ok ⟨st, [], none⟩) := by
  constructor
  · intro hc
    have hup : updatePriority s now st segment =
        Except.ok (download s now (abort st segment) segment none) := by
      unfold updatePriority
      rw [h]
      dsimp only
      rw [if_pos hc]
    have hab : abort st segment =
        { st with xhrRequests := merase st.xhrRequests segment.id } := by
      unfold abort; rw [h]
    have hnotdl : isDownloading (abort st segment) segment = false := by
      rw [hab]
      simp [isDownloading, mlookup_merase_self]
    have hdl := download_of_not_downloading s now (abort st segment) segment none hnotdl
    have hurl : resolveUrl s segment = segment.url := by
      simp [resolveUrl, hc.1]
    refine ⟨download s now (abort st segment) segment none, hup, ?_, ?_, ?_⟩
    · rw [hdl]
    · rw [hdl, hurl]
    · rw [hdl]
      simp only
      rw [hurl]
      exact mlookup_minsert_self _ _ _
  · intro hc
    unfold updatePriority
    rw [h]
    dsimp only
    rw [if_neg hc]

/-- C1 witness: at priority 1 (≤ skip threshold 1) the trigger fires on the
concrete state and the request is restarted under the literal URL. -/
theorem updatePriority_abort_retry_spec_witness :
    ∃ r : DownloadResult,
      updatePriority c1Settings 0 c1St c1wSeg = Except.ok r ∧
      r.events = [Event.segmentStartLoad "s1"] ∧
      r.started = some ⟨"litUrl", (resolveRange c1Settings c1wSeg none).1,
                        (resolveRange c1Settings c1wSeg none).2⟩ ∧
      mlookup r.state.xhrRequests "s1" = some ⟨c1wSeg, 1, "litUrl"⟩ :=
  (updatePriority_abort_retry_spec c1Settings 0 c1St c1wSeg c1Req (by decide)).1
    ⟨by decide, by decide, by decide⟩

/-- Settings whose validator rejects every payload. -/
def exSettingsRej : Settings := ⟨100, true, 1, 1, some (fun _ _ => false), none⟩

/-- C2: every failure path — non-2xx status on `load`, transport `error`,
`timeout`, and rejection by the configured validator — produces exactly
the `segmentFailure` outcome: the segment is removed from the in-flight
set, a blacklist entry expiring `httpFailedSegmentTimeout` after the
current time is recorded, and `segment-error` is emitted; the traces are
exact, so validator rejection never reaches the `segment-loaded`
emission. -/
theorem failure_paths_spec (s : Settings) (now : Nat) (st : ManagerState)
    (segment : Segment) (capturedPieces : Option (List Bytes)) (status : Nat)
    (response : Bytes) :
    (status < 200 ∨ 300 ≤ status →
      handleLoad s now st segment capturedPieces status response =
        ((segmentFailure s now st segment).1,
         [FinStep.emitted (Event.segmentError segment.id)
            (inflightIds (segmentFailure s now st segment).1)])) ∧
    handleError s now st segment =
      ((segmentFailure s now st segment).1, [Event.segmentError segment.id]) ∧
    handleTimeout s now st segment =
      ((segmentFailure s now st segment).1, [Event.segmentError segment.id]) ∧
    (∀ validator data, s.segmentValidator = some validator →
      validator segment data = false →
      segmentDownloadFinished s now st segment data =
        ((segmentFailure s now st segment).1,
         [FinStep.validatorCalled (inflightIds st) data false,
          FinStep.emitted (Event.segmentError segment.id)
            (inflightIds (segmentFailure s now st segment).1)])) ∧
    mlookup (segmentFailure s now st segment).1.xhrRequests segment.id = none ∧
    mlookup (segmentFailure s now st segment).1.failedSegments segment.id =
      some (now + s.httpFailedSegmentTimeout) := by
  refine ⟨?_, rfl, rfl, ?_, ?_, ?_⟩
  · intro hbad
    simp [handleLoad, hbad, emitAll, segmentFailure]
  · intro validator data hv hrej
    simp [segmentDownloadFinished, hv, hrej, emitAll, segmentFailure]
  · simp [segmentFailure, mlookup_merase_self]
  · simp [segmentFailure, mlookup_minsert_self]

/-- C2 witness: a 404 load and a rejected validation on a concrete
in-flight state both take the failure path. -/
theorem failure_paths_spec_witness :
    (404 < 200 ∨ 300 ≤ 404) ∧
    handleLoad exSettings 5 exStInflight exSeg none 404 [] =
      ((segmentFailure exSettings 5 exStInflight exSeg).1,
       [FinStep.emitted (Event.segmentError "s1")
          (inflightIds (segmentFailure exSettings 5 exStInflight exSeg).1)]) ∧
    segmentDownloadFinished exSettingsRej 5 exStInflight exSeg [1, 2] =
      ((segmentFailure exSettingsRej 5 exStInflight exSeg).1,
       [FinStep.validatorCalled (inflightIds exStInflight) [1, 2] false,
        FinStep.emitted (Event.segmentError "s1")
          (inflightIds (segmentFailure exSettingsRej 5 exStInflight exSeg).1)]) :=
  ⟨by decide,
   (failure_paths_spec exSettings 5 exStInflight exSeg none 404 []).1 (by decide),
   (failure_paths_spec exSettingsRej 5 exStInflight exSeg none 404 []).2.2.2.1
     (fun _ _ => false) [1, 2] rfl rfl⟩

/-- State for the C4 counterexample: segment s1 in flight, and a blacklist
entry for "b" that expired at time 0. -/
def c4St : ManagerState := ⟨[("s1", exReq)], [("b", 0)]⟩

/-- C4 counterexample: at time 5 a `download` call for the already
in-flight segment s1 returns early without purging the blacklist, so the
entry for "b" — whose expiry 0 lies in the past — survives that call to
`download`. -/
theorem download_purge_counterexample :
    mlookup (download exSettings 5 c4St exSeg none).state.failedSegments "b" = some 0 ∧
    (0 : Nat) < 5 := by
  exact ⟨rfl, by decide⟩

/-- C4 (amended): a failure recorded at time t blacklists the segment
until t + `httpFailedSegmentTimeout` — `isFailed` is true at every query
time strictly before that expiry and false at every query time strictly
after it — and every `download` call that actually initiates a request
(the segment is not already in flight) first purges the blacklist, so no
entry with an expiry in the past survives such a call. -/
theorem isFailed_window_spec (s : Settings) (t q now : Nat) (st : ManagerState)
    (segment : Segment) (pieces : Option (List Bytes)) :
    (q < t + s.httpFailedSegmentTimeout →
      isFailed (segmentFailure s t st segment).1 segment q = true) ∧
    (t + s.httpFailedSegmentTimeout < q →
      isFailed (segmentFailure s t st segment).1 segment q = false) ∧
    (isDownloading st segment = false →
      ∀ p ∈ (download s now st segment pieces).state.failedSegments, ¬ p.2 < now) := by
  refine ⟨?_, ?_, ?_⟩
  · intro hq
    simp [isFailed, segmentFailure, mlookup_minsert_self]
    exact hq
  · intro hq
    simp [isFailed, segmentFailure, mlookup_minsert_self]
    omega
  · intro h p hp
    rw [download_of_not_downloading s now st segment pieces h] at hp
    simp only [cleanTimedOutFailedSegments] at hp
    have := List.of_mem_filter hp
    simpa using this

/-- C4 witness: a failure at time 50 with timeout 100 is failed at 149 and
clean at 151; a download on a state with an expired entry purges it. -/
theorem isFailed_window_spec_witness :
    isFailed (segmentFailure exSettings 50 exStEmpty exSeg).1 exSeg 149 = true ∧
    isFailed (segmentFailure exSettings 50 exStEmpty exSeg).1 exSeg 151 = false ∧
    (∀ p ∈ (download exSettings 5 ⟨[], [("b", 0)]⟩ exSeg none).state.failedSegments,
      ¬ p.2 < 5) :=
  ⟨(isFailed_window_spec exSettings 50 149 0 exStEmpty exSeg none).1 (by decide),
   (isFailed_window_spec exSettings 50 151 0 exStEmpty exSeg none).2.1 (by decide),
   (isFailed_window_spec exSettings 0 0 5 ⟨[], [("b", 0)]⟩ exSeg none).2.2 (by decide)⟩

/-- C6 witness: a priority-5 segment under a configured builder gets the
built URL; the same segment at priority 0 gets the literal URL. -/
theorem download_url_spec_witness :
    isDownloading exStEmpty exSegHigh = false ∧
    ∃ req : StartedRequest,
      (download ⟨100, true, 1, 1, none, some (fun _ => "builtUrl")⟩ 0 exStEmpty exSegHigh none).started =
        some req ∧
      req.url = "builtUrl" := by
  have h := download_url_spec ⟨100, true, 1, 1, none, some (fun _ => "builtUrl")⟩ 0
    exStEmpty exSegHigh none (by decide)
  obtain ⟨req, hstart, _, _, habove⟩ := h
  exact ⟨by decide, req, hstart,
    (habove (by decide)).1 (fun _ => "builtUrl") rfl⟩

/-! ### Load-path helper lemmas -/

theorem handleLoad_206 (s : Settings) (now : Nat) (st : ManagerState)
    (segment : Segment) (pieces : List Bytes) (response : Bytes) :
    handleLoad s now st segment (some pieces) 206 response =
      segmentDownloadFinished s now st segment (pieces.flatten ++ response) := by
  norm_num [handleLoad]

theorem handleLoad_200_none (s : Settings) (now : Nat) (st : ManagerState)
    (segment : Segment) (response : Bytes) :
    handleLoad s now st segment none 200 response =
      segmentDownloadFinished s now st segment response := by
  norm_num [handleLoad]

theorem segmentDownloadFinished_head (s : Settings) (now : Nat)
    (st : ManagerState) (segment : Segment) (data : Bytes)
    (validator : Segment → Bytes → Bool)
    (hv : s.segmentValidator = some validator) :
    ∃ rest, (segmentDownloadFinished s now st segment data).2 =
      FinStep.validatorCalled (inflightIds st) data (validator segment data) :: rest := by
  cases hacc : validator segment data with
  | true =>
    exact ⟨emitAll { st with xhrRequests := merase st.xhrRequests segment.id }
            [Event.segmentLoaded segment.id data],
           by simp [segmentDownloadFinished, hv, hacc, emitAll]⟩
  | false =>
    exact ⟨emitAll (segmentFailure s now st segment).1 (segmentFailure s now st segment).2,
           by simp [segmentDownloadFinished, hv, hacc, emitAll]⟩

/-- Segment fixtures for the resumption claim. -/
def c3Seg : Segment := ⟨"s3", "litUrl", none, 0⟩

def c3SegRange : Segment := ⟨"s3", "litUrl", some "bytes=0-99", 0⟩

/-- C3: resuming a download from previously received chunks — with ranges
enabled and no explicit byte range on the segment, the request carries a
`Range` header starting at the summed byte length of the chunks and keeps
them; on a 206 the payload handed onward is the chunks in original order
followed by the new bytes, assembled before the validator sees it, and
when the server sends exactly the remaining bytes the whole load is
indistinguishable from a single non-partial 200 download of the full
payload; a segment with an explicit byte range instead sends its own
range and discards the supplied chunks (no resumption). -/
theorem resume_download_spec (s : Settings) (now : Nat) (st : ManagerState)
    (segment : Segment) (pieces : List Bytes) (response full : Bytes)
    (hnotdl : isDownloading st segment = false)
    (hranges : s.httpUseRanges = true)
    (_hne : pieces ≠ []) :
    (segment.range = none →
      (download s now st segment (some pieces)).started =
        some ⟨resolveUrl s segment,
              some ("bytes=" ++ toString (sumLen pieces) ++ "-"), some pieces⟩) ∧
    (∀ validator, s.segmentValidator = some validator →
      ∃ rest, (handleLoad s now st segment (some pieces) 206 response).2 =
        FinStep.validatorCalled (inflightIds st) (pieces.flatten ++ response)
          (validator segment (pieces.flatten ++ response)) :: rest) ∧
    (pieces.flatten = full.take (sumLen pieces) →
      handleLoad s now st segment (some pieces) 206 (full.drop (sumLen pieces)) =
        handleLoad s now st segment none 200 full) ∧
    (∀ r, segment.range = some r →
      (download s now st segment (some pieces)).started =
        some ⟨resolveUrl s segment, some r, none⟩) := by
  refine ⟨?_, ?_, ?_, ?_⟩
  · intro hr
    rw [download_of_not_downloading s now st segment (some pieces) hnotdl]
    simp [resolveRange, hr, hranges]
  · intro validator hv
    rw [handleLoad_206]
    exact segmentDownloadFinished_head s now st segment _ validator hv
  · intro hfull
    rw [handleLoad_206, handleLoad_200_none, hfull, List.take_append_drop]
  · intro r hr
    rw [download_of_not_downloading s now st segment (some pieces) hnotdl]
    simp [resolveRange, hr]

/-- C3 witness: chunks [1,2] and [3] of the payload [1,2,3,4,5] resume at
byte 3, and the resumed 206 load coincides with a plain 200 download of
the full payload; the explicit-range segment keeps its own header and
drops the chunks. -/
theorem resume_download_spec_witness :
    ((download exSettings 0 exStEmpty c3Seg (some [[1, 2], [3]])).started =
      some ⟨resolveUrl exSettings c3Seg,
            some ("bytes=" ++ toString (sumLen [[1, 2], [3]]) ++ "-"),
            some [[1, 2], [3]]⟩) ∧
    ("bytes=" ++ toString (sumLen [[1, 2], [3]]) ++ "-") = "bytes=3-" ∧
    (handleLoad exSettings 0 exStEmpty c3Seg (some [[1, 2], [3]]) 206
        ([1, 2, 3, 4, 5].drop (sumLen [[1, 2], [3]])) =
      handleLoad exSettings 0 exStEmpty c3Seg none 200 [1, 2, 3, 4, 5]) ∧
    ((download exSettings 0 exStEmpty c3SegRange (some [[1, 2], [3]])).started =
      some ⟨resolveUrl exSettings c3SegRange, some "bytes=0-99", none⟩) := by
  have h := resume_download_spec exSettings 0 exStEmpty c3Seg [[1, 2], [3]]
    [4, 5] [1, 2, 3, 4, 5] (by decide) rfl (by decide)
  have hr := resume_download_spec exSettings 0 exStEmpty c3SegRange [[1, 2], [3]]
    [4, 5] [1, 2, 3, 4, 5] (by decide) rfl (by decide)
  exact ⟨h.1 rfl, by decide, h.2.2.1 (by decide), hr.2.2.2 "bytes=0-99" rfl⟩

/-- Settings whose validator accepts every payload. -/
def exSettingsAcc : Settings := ⟨100, true, 1, 1, some (fun _ _ => true), none⟩

/-- C7: with a configured (asynchronous) validator that accepts, the
segment stays in the in-flight set for the whole validation window — the
validator is called while the state still holds the request — and on
acceptance the request is deleted strictly before `segment-loaded` is
emitted: the emission's in-flight snapshot no longer contains the segment.
The blacklist is untouched on the success path. -/
theorem validator_window_spec (s : Settings) (now : Nat) (st : ManagerState)
    (segment : Segment) (data : Bytes) (validator : Segment → Bytes → Bool)
    (hv : s.segmentValidator = some validator)
    (hacc : validator segment data = true)
    (hdl : isDownloading st segment = true) :
    (segmentDownloadFinished s now st segment data).2 =
      [FinStep.validatorCalled (inflightIds st) data true,
       FinStep.emitted (Event.segmentLoaded segment.id data)
         (inflightIds ⟨merase st.xhrRequests segment.id, st.failedSegments⟩)] ∧
    segment.id ∈ inflightIds st ∧
    segment.id ∉ inflightIds ⟨merase st.xhrRequests segment.id, st.failedSegments⟩ ∧
    mlookup (segmentDownloadFinished s now st segment data).1.xhrRequests segment.id =
      none ∧
    (segmentDownloadFinished s now st segment data).1.failedSegments =
      st.failedSegments := by
  refine ⟨?_, ?_, ?_, ?_, ?_⟩
  · simp [segmentDownloadFinished, hv, hacc, emitAll]
  · exact mem_keys_of_mlookup_isSome st.xhrRequests segment.id hdl
  · exact not_mem_keys_merase st.xhrRequests segment.id
  · simp [segmentDownloadFinished, hv, hacc, mlookup_merase_self]
  · simp [segmentDownloadFinished, hv, hacc]

/-- C7 witness: on the concrete in-flight state, validation sees s1 still
in flight and the loaded emission happens after its removal. -/
theorem validator_window_spec_witness :
    (segmentDownloadFinished exSettingsAcc 0 exStInflight exSeg [9]).2 =
      [FinStep.validatorCalled (inflightIds exStInflight) [9] true,
       FinStep.emitted (Event.segmentLoaded "s1" [9])
         (inflightIds ⟨merase exStInflight.xhrRequests "s1",
                       exStInflight.failedSegments⟩)] ∧
    "s1" ∈ inflightIds exStInflight ∧
    "s1" ∉ inflightIds ⟨merase exStInflight.xhrRequests "s1",
                        exStInflight.failedSegments⟩ :=
  have h := validator_window_spec exSettingsAcc 0 exStInflight exSeg [9]
    (fun _ _ => true) rfl rfl (by decide)
  ⟨h.1, h.2.1, h.2.2.1⟩

/-- The bytes-downloaded payloads among emitted events, for one segment. -/
def bytesEmitted (segId : String) (evs : List Event) : List Int :=
  evs.filterMap (fun ev => match ev with
    | Event.bytesDownloaded i n => if i = segId then some n else none
    | _ => none)

/-- The segment-size payloads among emitted events, for one segment. -/
def sizesEmitted (segId : String) (evs : List Event) : List Nat :=
  evs.filterMap (fun ev => match ev with
    | Event.segmentSize i t => if i = segId then some t else none
    | _ => none)

/-- Successive differences of a cumulative sequence, from a start value. -/
def diffsFrom : Int → List Int → List Int
  | _, [] => []
  | prev, x :: xs => (x - prev) :: diffsFrom x xs

/-- C8 counterexample: two progress notifications that both report a
computable length each emit a segment-size event — the total-size event
fires twice during the download, not once. -/
theorem progress_size_counterexample :
    (runProgress "s1" 0 [⟨10, true, 100⟩, ⟨25, true, 100⟩]).2 =
      [Event.bytesDownloaded "s1" 10, Event.segmentSize "s1" 100,
       Event.bytesDownloaded "s1" 15, Event.segmentSize "s1" 100] ∧
    (runProgress "s1" 0 [⟨10, true, 100⟩, ⟨25, true, 100⟩]).2.count
      (Event.segmentSize "s1" 100) = 2 := by
  exact ⟨by decide, by decide⟩

/-- C8 (amended): over any run of progress notifications the
bytes-downloaded events carry exactly the successive differences of the
cumulative loaded counts (incremental, never the cumulative total), and a
segment-size event carrying the reported total fires on every — not just
the first — notification whose length is computable. -/
theorem progress_events_spec (segId : String) (prev : Nat)
    (es : List ProgressEvent) :
    bytesEmitted segId (runProgress segId prev es).2 =
      diffsFrom (prev : Int) (es.map (fun e => (e.loaded : Int))) ∧
    sizesEmitted segId (runProgress segId prev es).2 =
      (es.filter (fun e => e.lengthComputable)).map (fun e => e.total) := by
  induction es generalizing prev with
  | nil => exact ⟨rfl, rfl⟩
  | cons e rest ih =>
    have h1 := (ih e.loaded).1
    have h2 := (ih e.loaded).2
    cases hlc : e.lengthComputable with
    | false =>
      constructor
      · simp [runProgress, progressStep, bytesEmitted, hlc, List.filterMap_append,
             diffsFrom] at h1 ⊢
        exact h1
      · simp [runProgress, progressStep, sizesEmitted, hlc, List.filterMap_append] at h2 ⊢
        exact h2
    | true =>
      constructor
      · simp [runProgress, progressStep, bytesEmitted, hlc, List.filterMap_append,
             diffsFrom] at h1 ⊢
        exact h1
      · simp [runProgress, progressStep, sizesEmitted, hlc, List.filterMap_append] at h2 ⊢
        exact h2

end P2PML
